import Mathlib

/-!
Verification of the express-ts-wizard project-scaffolding CLI.

The development shallowly embeds the tool's core pipeline
(src/prompts.ts, src/actions.ts, src/index.ts): user choices collected by
the interactive wizard, target-path resolution, template materialization
with placeholder substitution, dependency installation with lock-file
verification, and best-effort Git initialization.

Effectful TypeScript code is embedded in a trace monad: a computation is a
function from an environment oracle (`World`, fixing the outcome of every
external filesystem and subprocess interaction) to the list of
externally-observable events it performs plus its result, where the result
distinguishes normal completion, a thrown error, and `process.exit`.
-/

/-! Section: Data model (src/prompts.ts) -/

/-- Embeds the type `TsStrictness = "relaxed" | "moderate" | "strict"`. -/
inductive TsStrictness where
  | relaxed : TsStrictness
  | moderate : TsStrictness
  | strict : TsStrictness
deriving DecidableEq

/-- Embeds the interface `UserChoices` of src/prompts.ts: an immutable
record of the three wizard answers. -/
structure UserChoices where
  projectName : String
  tsStrictness : TsStrictness
  initGit : Bool
deriving DecidableEq

/-- Outcome of the external interactive prompt renderer: the user either
cancelled, or completed all three prompts producing a record. -/
inductive PromptOutcome where
  | cancelled : PromptOutcome
  | completed : UserChoices → PromptOutcome

/-! Section: Effect model -/

/-- Externally observable actions of the tool: filesystem operations,
subprocess spawns (`execa`), and user-facing reporting (spinner, cancel
banner, notes). -/
inductive Event where
  | ensureDir (path : List String) : Event
  | copyFile (src : List String) (dst : List String) : Event
  | readFile (path : List String) : Event
  | writeFile (path : List String) (content : String) : Event
  | spawn (cmd : String) (args : List String) (cwdPath : List String) : Event
  | spinnerStart (msg : String) : Event
  | spinnerStop (msg : String) : Event
  | cancelMsg (msg : String) : Event
  | note (msg : String) : Event
deriving DecidableEq

/-- Result of a computation: normal value, thrown JavaScript error with its
message, or `process.exit` with a code. -/
inductive ExecResult (α : Type) where
  | ok : α → ExecResult α
  | error : String → ExecResult α
  | exit : Nat → ExecResult α
deriving DecidableEq

/-- Environment oracle: fixes the current working directory, the directory
containing the tool's own compiled file (`path.dirname(fileURLToPath(import.meta.url))`),
and the outcome of every external filesystem and subprocess interaction.
Paths are lists of path segments. -/
structure World where
  cwd : List String
  currentDirectory : List String
  fsExists : List String → Bool
  ensureDirOk : List String → Bool
  copyOk : List String → List String → Bool
  readFileRes : List String → Except String String
  writeOk : List String → Bool
  spawnExit : String → List String → List String → Nat

/-- The trace monad: a computation maps the environment oracle to the list
of events it performs and its result. -/
def M (α : Type) : Type := World → List Event × ExecResult α

def M.pure {α : Type} (a : α) : M α := fun _ => ([], ExecResult.ok a)

/-- Sequencing: a thrown error or a `process.exit` aborts the rest of the
computation, keeping the events performed so far. -/
def M.bind {α β : Type} (x : M α) (f : α → M β) : M β := fun w =>
  match x w with
  | (t, ExecResult.ok a) =>
    match f a w with
    | (t2, r) => (t ++ t2, r)
  | (t, ExecResult.error e) => (t, ExecResult.error e)
  | (t, ExecResult.exit c) => (t, ExecResult.exit c)

instance monadM : Monad M where
  pure := @M.pure
  bind := @M.bind

/-- Embeds a `try { body } catch (e) { handler }` block. A thrown error is
passed to the handler; `process.exit` is not an exception and is never
caught. -/
def tryCatchM {α : Type} (body : M α) (handler : String → M α) : M α := fun w =>
  match body w with
  | (t, ExecResult.error e) =>
    match handler e w with
    | (t2, r) => (t ++ t2, r)
  | other => other

/-- Embeds reading a pure function of the environment (e.g. `process.cwd()`). -/
def readW {α : Type} (f : World → α) : M α := fun w => ([], ExecResult.ok (f w))

/-- Embeds `fs.existsSync`: a read-only query, no event. -/
def fsExistsSyncM (p : List String) : M Bool := fun w => ([], ExecResult.ok (w.fsExists p))

/-- Embeds `fs.ensureDir`. -/
def fsEnsureDir (p : List String) : M Unit := fun w =>
  ([Event.ensureDir p],
   if w.ensureDirOk p then ExecResult.ok () else ExecResult.error ("ensureDir failed"))

/-- Embeds `fs.copy`. -/
def fsCopy (src : List String) (dst : List String) : M Unit := fun w =>
  ([Event.copyFile src dst],
   if w.copyOk src dst then ExecResult.ok () else ExecResult.error ("copy failed"))

/-- Embeds `fs.readFile(..., "utf-8")`. -/
def fsReadFile (p : List String) : M String := fun w =>
  ([Event.readFile p],
   match w.readFileRes p with
   | Except.ok s => ExecResult.ok s
   | Except.error e => ExecResult.error e)

/-- Embeds `fs.writeFile`. -/
def fsWriteFile (p : List String) (content : String) : M Unit := fun w =>
  ([Event.writeFile p content],
   if w.writeOk p then ExecResult.ok () else ExecResult.error ("writeFile failed"))

/-- Embeds `execa(cmd, args, { cwd, stdio: "pipe" })`: rejects (throws)
when the subprocess exits non-zero. -/
def execa (cmd : String) (args : List String) (cwdPath : List String) : M Unit := fun w =>
  ([Event.spawn cmd args cwdPath],
   if w.spawnExit cmd args cwdPath = 0 then ExecResult.ok ()
   else ExecResult.error (cmd ++ (" exited non-zero")))

/-- Embeds `spinner.start(msg)`: user-facing reporting only. -/
def spinnerStartM (msg : String) : M Unit := fun _ => ([Event.spinnerStart msg], ExecResult.ok ())

/-- Embeds `spinner.stop(msg)`: user-facing reporting only. -/
def spinnerStopM (msg : String) : M Unit := fun _ => ([Event.spinnerStop msg], ExecResult.ok ())

/-- Embeds `p.cancel(msg)`: user-facing reporting only. -/
def cancelM (msg : String) : M Unit := fun _ => ([Event.cancelMsg msg], ExecResult.ok ())

/-- Embeds `p.note` / `p.outro`: user-facing reporting only. -/
def noteM (msg : String) : M Unit := fun _ => ([Event.note msg], ExecResult.ok ())

/-- Embeds `process.exit(code)`. -/
def processExit {α : Type} (code : Nat) : M α := fun _ => ([], ExecResult.exit code)

/-- Embeds `throw new Error(msg)` (and rethrow of a caught error). -/
def throwErr {α : Type} (msg : String) : M α := fun _ => ([], ExecResult.error msg)

/-! Section: Path model

Paths are lists of segments. `splitPathStr` splits a string on the
separator, `normalizeInto` models the `.` and `..` normalization performed
by `path.join` and `path.resolve`, and `resolvePath` models
`path.resolve(cwd, s)` for a single argument `s`. -/

def pathSep : Char := ('/' : Char)

def splitPathAux : List Char → List (List Char)
  | [] => [[]]
  | c :: rest =>
    let r := splitPathAux rest
    if c = pathSep then [] :: r
    else (c :: r.headI) :: r.tail

/-- Splits a path string into its non-empty segments. -/
def splitPathStr (s : String) : List String :=
  ((splitPathAux s.data).filter (fun l => l ≠ [])).map (fun l => String.mk l)

/-- Appends segments onto a base path, collapsing `.` and `..` as the Node
path functions do (`..` at the root stays at the root). -/
def normalizeInto (base : List String) : List String → List String
  | [] => base
  | seg :: rest =>
    if seg = (".") then normalizeInto base rest
    else if seg = ("..") then normalizeInto base.dropLast rest
    else normalizeInto (base ++ [seg]) rest

def startsWithSep (s : String) : Bool :=
  match s.data with
  | [] => false
  | c :: _ => c = pathSep

/-- Models `path.resolve(cwd, s)`: an absolute `s` replaces `cwd`,
otherwise `s` is joined onto `cwd`, with normalization. -/
def resolvePath (cwd : List String) (s : String) : List String :=
  if startsWithSep s then normalizeInto [] (splitPathStr s)
  else normalizeInto cwd (splitPathStr s)

/-- Models `path.join(base, seg, ...)` for literal segments. -/
def joinSegs (base : List String) (segs : List String) : List String :=
  normalizeInto base segs

/-! Section: Project-name validation (src/prompts.ts) -/

/-- Character class of the validation regex `[a-z0-9-_]` under the `i`
flag: ASCII letters of either case, digits, hyphen, underscore. Without
the `u` flag the case-insensitive match does not cross the ASCII barrier,
so no non-ASCII character matches. -/
def isNameChar (c : Char) : Bool :=
  (97 ≤ c.toNat && c.toNat ≤ 122) || (65 ≤ c.toNat && c.toNat ≤ 90) ||
    (48 ≤ c.toNat && c.toNat ≤ 57) || c.toNat = 45 || c.toNat = 95

/-- Embeds the `validate` callback of the projectName text prompt: `none`
means the name is accepted. -/
def validateProjectName (value : String) : Option String :=
  if value = ("") then some ("Project name is required")
  else if value.data.all isNameChar then none
  else some ("Only letters, numbers, hyphens and underscores allowed")

/-- Stated from the spec's words: the pattern `[A-Za-z0-9_-]+` as a
predicate on strings, for comparison with the code's validator. -/
def specNameChar (c : Char) : Bool :=
  (65 ≤ c.toNat && c.toNat ≤ 90) || (97 ≤ c.toNat && c.toNat ≤ 122) ||
    (48 ≤ c.toNat && c.toNat ≤ 57) || c.toNat = 95 || c.toNat = 45

/-- Stated from the spec's words: a non-empty string every character of
which lies in `[A-Za-z0-9_-]`. -/
def specNamePattern (s : String) : Bool :=
  !(s.data.isEmpty) && s.data.all specNameChar

/-! Section: Placeholder substitution (src/actions.ts line 53)

`template.replace(/\x7b\x7bPROJECT_NAME\x7d\x7d/g, projectName)` scans the
template left to right, replacing every non-overlapping occurrence of the
literal token. JavaScript expands `$$` and `$&` inside the replacement
string; with no capture groups any other `$` sequence is kept literally.
The context-dependent forms (portion before/after the match) are not
modelled; no theorem below evaluates the substitution on a replacement
containing a dollar sign, and the validated project names it is applied to
never contain one. -/

def expandDollar (matched : List Char) : List Char → List Char
  | [] => []
  | [c] => [c]
  | c :: d :: rest2 =>
    if c = ('$' : Char) then
      if d = ('$' : Char) then ('$' : Char) :: expandDollar matched rest2
      else if d = ('&' : Char) then matched ++ expandDollar matched rest2
      else c :: expandDollar matched (d :: rest2)
    else c :: expandDollar matched (d :: rest2)

/-- One left-to-right scan replacing every non-overlapping occurrence of
`pat` by `rep`; the fuel bounds the recursion and is instantiated with the
length of the subject, which one scan never exceeds. -/
def replaceFuel (pat rep : List Char) : Nat → List Char → List Char
  | 0, rest => rest
  | _ + 1, [] => []
  | f + 1, c :: rest =>
    if pat.isPrefixOf (c :: rest) then
      rep ++ replaceFuel pat rep f (List.drop (pat.length - 1) rest)
    else
      c :: replaceFuel pat rep f rest

def replaceAllTok (pat rep s : List Char) : List Char := replaceFuel pat rep s.length s

/-- The literal placeholder token of the manifest template. -/
def placeholderToken : List Char := ("\x7b\x7bPROJECT_NAME\x7d\x7d").data

/-- Embeds `packageTemplateContent.replace(/\x7b\x7bPROJECT_NAME\x7d\x7d/g, projectName)`. -/
def replacePlaceholder (template : String) (projectName : String) : String :=
  String.mk (replaceAllTok placeholderToken (expandDollar placeholderToken projectName.data) template.data)

/-! Section: Template store

The template files themselves live outside the sources under
verification. -/

/-- Modelled from the spec: the static template store holds the server
entry point, the ignore rules, the manifest template and the three
strictness-specific tsconfig variants (spec sections 2 and 4.2). -/
def templateStoreFiles : List (List String) :=
  [[("base"), ("src"), ("index.ts")],
   [("base"), ("gitignore")],
   [("base"), ("package.template.json")],
   [("tsconfig"), ("relaxed.json")],
   [("tsconfig"), ("moderate.json")],
   [("tsconfig"), ("strict.json")]]

/-- Modelled from the spec: the manifest template (package.template.json is
not among the sources under verification) carries the literal placeholder
token in its name field (spec sections 4.2 and 8; the repository's test
fixture uses the same shape). -/
def packageTemplateModel : String := "\x7b\"name\": \"\x7b\x7bPROJECT_NAME\x7d\x7d\"\x7d"

def manifestPrefix : String := "\x7b\"name\": \""

def manifestSuffix : String := "\"\x7d"

/-! Section: The pipeline (src/actions.ts) -/

/-- Embeds the template-literal file name of the tsconfig variant. -/
def tsStrictnessString : TsStrictness → String
  | TsStrictness.relaxed => ("relaxed")
  | TsStrictness.moderate => ("moderate")
  | TsStrictness.strict => ("strict")

def strictnessFileName (level : TsStrictness) : String :=
  tsStrictnessString level ++ (".json")

/-- Embeds `getTemplatesDirectory` of src/actions.ts: prefer the packaged
location when it exists on disk, else the development location. -/
def getTemplatesDirectory (w : World) : List String :=
  let productionPath := w.currentDirectory ++ [("templates")]
  let developmentPath := joinSegs w.currentDirectory [(".."), ("src"), ("templates")]
  if w.fsExists productionPath then productionPath else developmentPath

/-- Embeds `copyProjectFiles` of src/actions.ts. -/
def copyProjectFiles (templatesDirectory : List String) (projectPath : List String)
    (projectName : String) (tsStrictness : TsStrictness) : M Unit := do
  fsEnsureDir (projectPath ++ [("src")])
  let sourceIndexPath := templatesDirectory ++ [("base"), ("src"), ("index.ts")]
  fsCopy sourceIndexPath (projectPath ++ [("src"), ("index.ts")])
  let gitignoreSourcePath := templatesDirectory ++ [("base"), ("gitignore")]
  fsCopy gitignoreSourcePath (projectPath ++ [(".gitignore")])
  let packageTemplateContent ← fsReadFile (templatesDirectory ++ [("base"), ("package.template.json")])
  let packageJsonContent := replacePlaceholder packageTemplateContent projectName
  fsWriteFile (projectPath ++ [("package.json")]) packageJsonContent
  let tsconfigSourcePath := templatesDirectory ++ [("tsconfig"), (strictnessFileName tsStrictness)]
  fsCopy tsconfigSourcePath (projectPath ++ [("tsconfig.json")])

/-- Embeds `installDependencies` of src/actions.ts: run `npm install` in
the project directory, then verify that package-lock.json was created. -/
def installDependencies (projectPath : List String) : M Unit := do
  execa ("npm") [("install")] projectPath
  let lockExists ← fsExistsSyncM (projectPath ++ [("package-lock.json")])
  if !lockExists then throwErr ("package-lock.json was not generated")

/-- Embeds `initializeGitRepository` of src/actions.ts: three sequential
git subprocesses in the project directory. -/
def initializeGitRepository (projectPath : List String) : M Unit := do
  execa ("git") [("init")] projectPath
  execa ("git") [("add"), (".")] projectPath
  execa ("git") [("commit"), ("-m"), ("Initial commit from express-ts-wizard")] projectPath

/-- Embeds `createProject` of src/actions.ts: precondition check on the
resolved target path, then materialization, installation and optional Git
initialization, each stage awaited in order. -/
def createProject (choices : UserChoices) : M Unit := do
  let projectName := choices.projectName
  let tsStrictness := choices.tsStrictness
  let initGit := choices.initGit
  let projectPath ← readW (fun w => resolvePath w.cwd projectName)
  let templatesDirectory ← readW getTemplatesDirectory
  let targetExists ← fsExistsSyncM projectPath
  if targetExists then do
    cancelM (("Directory \"") ++ projectName ++ ("\" already exists."))
    processExit 1
  spinnerStartM ("Creating project structure...")
  tryCatchM
    (do
      copyProjectFiles templatesDirectory projectPath projectName tsStrictness
      spinnerStopM ("Project structure created ✓"))
    (fun e => do
      spinnerStopM ("Error creating structure")
      throwErr e)
  spinnerStartM ("Installing dependencies...")
  tryCatchM
    (do
      installDependencies projectPath
      spinnerStopM ("Dependencies installed ✓"))
    (fun e => do
      spinnerStopM ("Error installing dependencies")
      throwErr e)
  if initGit then do
    spinnerStartM ("Initializing Git...")
    tryCatchM
      (do
        initializeGitRepository projectPath
        spinnerStopM ("Git initialized ✓"))
      (fun _ => spinnerStopM ("Error initializing Git (may not be installed)"))

/-- Embeds `getTsStrictnessDescription` of src/actions.ts. -/
def getTsStrictnessDescription : TsStrictness → String
  | TsStrictness.relaxed => ("Relaxed (strict: false)")
  | TsStrictness.moderate => ("Moderate (strict: true)")
  | TsStrictness.strict => ("Strict (maximum options)")

/-! Section: Wizard entry points (src/prompts.ts, src/index.ts) -/

/-- Embeds `runPrompts` of src/prompts.ts. The interactive rendering is
external; its outcome is the parameter. On cancellation the `onCancel`
handler reports and exits the process with code 0; otherwise the collected
record is returned unchanged. The intro banner is display-only and not
modelled. -/
def runPrompts (outcome : PromptOutcome) : M UserChoices :=
  match outcome with
  | PromptOutcome.cancelled => do
    cancelM ("Operation cancelled.")
    processExit 0
  | PromptOutcome.completed choices => M.pure choices

/-- Embeds `displaySuccessMessage` of src/index.ts: purely user-facing
notes (the exact styled text is display-only). -/
def displaySuccessMessage (projectName : String) (strictnessDescription : String) : M Unit := do
  noteM (("cd ") ++ projectName)
  noteM (("Project ") ++ projectName ++ (" created with TypeScript ") ++ strictnessDescription)

/-- Embeds `main` of src/index.ts. The null-choices guard of the source is
unreachable here because cancellation already exits inside `runPrompts`.
Any error escaping `createProject` is reported and turned into exit
code 1. -/
def mainEntry (promptOutcome : PromptOutcome) : M Unit := do
  let choices ← runPrompts promptOutcome
  tryCatchM
    (do
      createProject choices
      displaySuccessMessage choices.projectName (getTsStrictnessDescription choices.tsStrictness))
    (fun _ => do
      cancelM ("Error creating project")
      processExit 1)

/-- Exit code of the whole process for a finished `main` computation: a
normal return exits 0, an explicit exit keeps its code, and an uncaught
error terminates the Node process with a non-zero code (taken as 1). -/
def processExitCode : ExecResult Unit → Nat
  | ExecResult.ok _ => 0
  | ExecResult.error _ => 1
  | ExecResult.exit c => c

/-! Section: Event classifiers and a filesystem interpreter -/

/-- Does the event mutate the filesystem? -/
def isFsWrite : Event → Bool
  | Event.ensureDir _ => true
  | Event.copyFile _ _ => true
  | Event.writeFile _ _ => true
  | _ => false

/-- Is the event a subprocess spawn? -/
def isSpawn : Event → Bool
  | Event.spawn _ _ _ => true
  | _ => false

/-- Is the event a git subprocess spawn? -/
def isGitSpawn : Event → Bool
  | Event.spawn cmd _ _ => cmd = ("git")
  | _ => false

/-- The path a mutating event writes to. -/
def writeTargetPath : Event → Option (List String)
  | Event.ensureDir p => some p
  | Event.copyFile _ dst => some dst
  | Event.writeFile p _ => some p
  | _ => none

/-- The path a filesystem-reading event reads from. -/
def readSourcePath : Event → Option (List String)
  | Event.copyFile src _ => some src
  | Event.readFile p => some p
  | _ => none

/-- A file-content model of the filesystem, to interpret traces. -/
def FSModel : Type := List String → Option String

/-- Interprets one event on the filesystem model: `fs.copy` duplicates the
source content at the destination, `fs.writeFile` stores the written
content, everything else leaves file contents unchanged. -/
def applyEvent (fs : FSModel) : Event → FSModel
  | Event.copyFile src dst => fun q => if q = dst then fs src else fs q
  | Event.writeFile p content => fun q => if q = p then some content else fs q
  | _ => fs

def applyTrace (fs : FSModel) (events : List Event) : FSModel :=
  events.foldl applyEvent fs

/-! Section: Substring machinery for the placeholder claims -/

def obr : Char := Char.ofNat 123

/-- Does the token occur as a contiguous substring? -/
def containsTok (pat : List Char) : List Char → Bool
  | [] => pat.isEmpty
  | c :: rest => pat.isPrefixOf (c :: rest) || containsTok pat rest

/-- No two adjacent opening braces occur. -/
def noDoubleBrace : List Char → Bool
  | [] => true
  | [_] => true
  | a :: b :: rest => !(a = obr && b = obr) && noDoubleBrace (b :: rest)

/-! Concrete sample inputs: a sample choice record and environment
oracles used to evaluate the development on closed inputs. -/

def demoChoices : UserChoices where
  projectName := ("demo-app")
  tsStrictness := TsStrictness.strict
  initGit := true

def worldTargetExists : World where
  cwd := [("home")]
  currentDirectory := [("app"), ("dist")]
  fsExists := fun _ => true
  ensureDirOk := fun _ => true
  copyOk := fun _ _ => true
  readFileRes := fun _ => Except.ok packageTemplateModel
  writeOk := fun _ => true
  spawnExit := fun _ _ _ => 0

def worldNpmFails : World where
  cwd := [("home")]
  currentDirectory := [("app"), ("dist")]
  fsExists := fun _ => false
  ensureDirOk := fun _ => true
  copyOk := fun _ _ => true
  readFileRes := fun _ => Except.ok packageTemplateModel
  writeOk := fun _ => true
  spawnExit := fun cmd _ _ => if cmd = ("npm") then 1 else 0

def demoChoicesNoGitless : UserChoices where
  projectName := ("demo-app2")
  tsStrictness := TsStrictness.moderate
  initGit := true

def worldGitFails : World where
  cwd := [("home")]
  currentDirectory := [("app"), ("dist")]
  fsExists := fun p => p = [("home"), ("demo-app"), ("package-lock.json")]
  ensureDirOk := fun _ => true
  copyOk := fun _ _ => true
  readFileRes := fun _ => Except.ok packageTemplateModel
  writeOk := fun _ => true
  spawnExit := fun cmd _ _ => if cmd = ("git") then 127 else 0

def demoChoicesNoGit : UserChoices where
  projectName := ("demo-app")
  tsStrictness := TsStrictness.relaxed
  initGit := false

def worldAllOk : World where
  cwd := [("home")]
  currentDirectory := [("app"), ("dist")]
  fsExists := fun p => p = [("home"), ("demo-app"), ("package-lock.json")]
  ensureDirOk := fun _ => true
  copyOk := fun _ _ => true
  readFileRes := fun _ => Except.ok packageTemplateModel
  writeOk := fun _ => true
  spawnExit := fun _ _ _ => 0

/-! Section: Trace-shape lemmas for the pipeline stages -/

theorem install_trace_eq (p : List String) (w : World) :
    (installDependencies p w).1 = [Event.spawn ("npm") [("install")] p] := by
  unfold installDependencies
  by_cases h : w.spawnExit ("npm") [("install")] p = 0 <;>
    cases hl : w.fsExists (p ++ [("package-lock.json")]) <;>
      simp [Bind.bind, Pure.pure, M.bind, M.pure, execa, fsExistsSyncM, throwErr, h, hl, monadM]

theorem install_ok_iff (p : List String) (w : World) :
    (installDependencies p w).2 = ExecResult.ok () ↔
      (w.spawnExit ("npm") [("install")] p = 0 ∧
        w.fsExists (p ++ [("package-lock.json")]) = true) := by
  unfold installDependencies
  by_cases h : w.spawnExit ("npm") [("install")] p = 0 <;>
    cases hl : w.fsExists (p ++ [("package-lock.json")]) <;>
      simp [Bind.bind, Pure.pure, M.bind, M.pure, execa, fsExistsSyncM, throwErr, h, hl, monadM]

theorem install_result_cases (p : List String) (w : World) :
    (installDependencies p w).2 = ExecResult.ok () ∨
      ∃ msg, (installDependencies p w).2 = ExecResult.error msg := by
  unfold installDependencies
  by_cases h : w.spawnExit ("npm") [("install")] p = 0 <;>
    cases hl : w.fsExists (p ++ [("package-lock.json")]) <;>
      simp [Bind.bind, Pure.pure, M.bind, M.pure, execa, fsExistsSyncM, throwErr, h, hl, monadM]

theorem copy_no_spawn (tdir ppath : List String) (n : String) (s : TsStrictness) (w : World) :
    ∀ e ∈ (copyProjectFiles tdir ppath n s w).1, isSpawn e = false := by
  unfold copyProjectFiles
  cases h1 : w.ensureDirOk (ppath ++ [("src")]) <;>
  cases h2 : w.copyOk (tdir ++ [("base"), ("src"), ("index.ts")]) (ppath ++ [("src"), ("index.ts")]) <;>
  cases h3 : w.copyOk (tdir ++ [("base"), ("gitignore")]) (ppath ++ [(".gitignore")]) <;>
  cases h4 : w.readFileRes (tdir ++ [("base"), ("package.template.json")]) <;>
  cases h5 : w.writeOk (ppath ++ [("package.json")]) <;>
  cases h6 : w.copyOk (tdir ++ [("tsconfig"), (strictnessFileName s)]) (ppath ++ [("tsconfig.json")]) <;>
  simp [Bind.bind, Pure.pure, M.bind, M.pure, monadM, fsEnsureDir, fsCopy, fsReadFile,
    fsWriteFile, isSpawn, h1, h2, h3, h4, h5, h6]

theorem copy_result_not_exit (tdir ppath : List String) (n : String) (s : TsStrictness)
    (w : World) : ∀ c, (copyProjectFiles tdir ppath n s w).2 ≠ ExecResult.exit c := by
  unfold copyProjectFiles
  cases h1 : w.ensureDirOk (ppath ++ [("src")]) <;>
  cases h2 : w.copyOk (tdir ++ [("base"), ("src"), ("index.ts")]) (ppath ++ [("src"), ("index.ts")]) <;>
  cases h3 : w.copyOk (tdir ++ [("base"), ("gitignore")]) (ppath ++ [(".gitignore")]) <;>
  cases h4 : w.readFileRes (tdir ++ [("base"), ("package.template.json")]) <;>
  cases h5 : w.writeOk (ppath ++ [("package.json")]) <;>
  cases h6 : w.copyOk (tdir ++ [("tsconfig"), (strictnessFileName s)]) (ppath ++ [("tsconfig.json")]) <;>
  simp [Bind.bind, Pure.pure, M.bind, M.pure, monadM, fsEnsureDir, fsCopy, fsReadFile,
    fsWriteFile, h1, h2, h3, h4, h5, h6]

theorem copy_trace_ok (tdir ppath : List String) (n : String) (s : TsStrictness)
    (tmpl : String) (w : World)
    (h1 : w.ensureDirOk (ppath ++ [("src")]) = true)
    (h2 : w.copyOk (tdir ++ [("base"), ("src"), ("index.ts")]) (ppath ++ [("src"), ("index.ts")]) = true)
    (h3 : w.copyOk (tdir ++ [("base"), ("gitignore")]) (ppath ++ [(".gitignore")]) = true)
    (h4 : w.readFileRes (tdir ++ [("base"), ("package.template.json")]) = Except.ok tmpl)
    (h5 : w.writeOk (ppath ++ [("package.json")]) = true)
    (h6 : w.copyOk (tdir ++ [("tsconfig"), (strictnessFileName s)]) (ppath ++ [("tsconfig.json")]) = true) :
    copyProjectFiles tdir ppath n s w =
      ([Event.ensureDir (ppath ++ [("src")]),
        Event.copyFile (tdir ++ [("base"), ("src"), ("index.ts")]) (ppath ++ [("src"), ("index.ts")]),
        Event.copyFile (tdir ++ [("base"), ("gitignore")]) (ppath ++ [(".gitignore")]),
        Event.readFile (tdir ++ [("base"), ("package.template.json")]),
        Event.writeFile (ppath ++ [("package.json")]) (replacePlaceholder tmpl n),
        Event.copyFile (tdir ++ [("tsconfig"), (strictnessFileName s)]) (ppath ++ [("tsconfig.json")])],
       ExecResult.ok ()) := by
  unfold copyProjectFiles
  simp [Bind.bind, Pure.pure, M.bind, M.pure, monadM, fsEnsureDir, fsCopy, fsReadFile,
    fsWriteFile, h1, h2, h3, h4, h5, h6]

theorem git_trace_spawns (p : List String) (w : World) :
    ∀ e ∈ (initializeGitRepository p w).1,
      isFsWrite e = false ∧ isSpawn e = true ∧ isGitSpawn e = true := by
  unfold initializeGitRepository
  by_cases h1 : w.spawnExit ("git") [("init")] p = 0 <;>
  by_cases h2 : w.spawnExit ("git") [("add"), (".")] p = 0 <;>
  by_cases h3 : w.spawnExit ("git") [("commit"), ("-m"), ("Initial commit from express-ts-wizard")] p = 0 <;>
  simp [Bind.bind, Pure.pure, M.bind, M.pure, monadM, execa, isFsWrite, isSpawn, isGitSpawn,
    h1, h2, h3]

theorem git_result_cases (p : List String) (w : World) :
    (initializeGitRepository p w).2 = ExecResult.ok () ∨
      ∃ msg, (initializeGitRepository p w).2 = ExecResult.error msg := by
  unfold initializeGitRepository
  by_cases h1 : w.spawnExit ("git") [("init")] p = 0 <;>
  by_cases h2 : w.spawnExit ("git") [("add"), (".")] p = 0 <;>
  by_cases h3 : w.spawnExit ("git") [("commit"), ("-m"), ("Initial commit from express-ts-wizard")] p = 0 <;>
  simp [Bind.bind, Pure.pure, M.bind, M.pure, monadM, execa, h1, h2, h3]

/-! Section: Validator and path lemmas -/

theorem validate_none_iff (s : String) :
    validateProjectName s = none ↔ (s ≠ ("") ∧ s.data.all isNameChar = true) := by
  unfold validateProjectName
  by_cases h0 : s = ("")
  · simp [h0]
  · by_cases h1 : s.data.all isNameChar <;> simp [h0, h1]

theorem isNameChar_eq_specNameChar (c : Char) : isNameChar c = specNameChar c := by
  rw [Bool.eq_iff_iff]
  unfold isNameChar specNameChar
  simp only [Bool.or_eq_true, Bool.and_eq_true, decide_eq_true_eq]
  tauto

theorem isNameChar_toNat_ne (c : Char) (h : isNameChar c = true) (n : Nat)
    (hn : n < 45 ∨ n = 46 ∨ n = 47 ∨ n = 63 ∨ n = 91 ∨ n = 92 ∨ n = 123 ∨ n = 125 ∨ n = 36) :
    c.toNat ≠ n := by
  unfold isNameChar at h
  simp only [Bool.or_eq_true, Bool.and_eq_true, decide_eq_true_eq] at h
  omega

theorem isNameChar_ne_sep (c : Char) (h : isNameChar c = true) : c ≠ pathSep := by
  intro heq
  subst heq
  revert h
  decide

theorem isNameChar_ne_dollar (c : Char) (h : isNameChar c = true) : c ≠ ('$' : Char) := by
  intro heq
  subst heq
  revert h
  decide

theorem isNameChar_ne_obr (c : Char) (h : isNameChar c = true) : c ≠ obr := by
  intro heq
  subst heq
  revert h
  decide

theorem isNameChar_ne_dot (c : Char) (h : isNameChar c = true) : c ≠ ('.' : Char) := by
  intro heq
  subst heq
  revert h
  decide

theorem string_eq_empty_iff (s : String) : s = ("") ↔ s.data = [] := by
  cases s with
  | mk d => simp [String.ext_iff]

theorem splitPathAux_no_sep (l : List Char) (h : ∀ c ∈ l, c ≠ pathSep) :
    splitPathAux l = [l] := by
  induction l with
  | nil => rfl
  | cons c rest ih =>
    have hc : c ≠ pathSep := h c (by simp)
    unfold splitPathAux
    rw [ih (fun x hx => h x (List.mem_cons_of_mem c hx))]
    simp [hc, List.headI]

theorem splitPathStr_name (s : String) (h : ∀ c ∈ s.data, c ≠ pathSep)
    (hne : s.data ≠ []) : splitPathStr s = [s] := by
  unfold splitPathStr
  rw [splitPathAux_no_sep s.data h]
  simp [hne]

theorem normalizeInto_single (base : List String) (s : String)
    (h1 : s ≠ (".")) (h2 : s ≠ ("..")) : normalizeInto base [s] = base ++ [s] := by
  simp [normalizeInto, h1, h2]

theorem validName_chars (s : String) (hv : validateProjectName s = none) :
    ∀ c ∈ s.data, isNameChar c = true := by
  obtain ⟨_, hall⟩ := (validate_none_iff s).mp hv
  rw [List.all_eq_true] at hall
  intro c hc
  exact hall c hc

theorem validName_data_ne_nil (s : String) (hv : validateProjectName s = none) :
    s.data ≠ [] := by
  obtain ⟨hne, _⟩ := (validate_none_iff s).mp hv
  intro hd
  exact hne ((string_eq_empty_iff s).mpr hd)

theorem validName_resolve (cwd : List String) (s : String)
    (hv : validateProjectName s = none) : resolvePath cwd s = cwd ++ [s] := by
  have hchars := validName_chars s hv
  have hnosep : ∀ c ∈ s.data, c ≠ pathSep := fun c hc => isNameChar_ne_sep c (hchars c hc)
  have hdata := validName_data_ne_nil s hv
  have hdot : s ≠ (".") := by
    intro h
    subst h
    obtain ⟨_, hall⟩ := (validate_none_iff _).mp hv
    revert hall
    decide
  have hdotdot : s ≠ ("..") := by
    intro h
    subst h
    obtain ⟨_, hall⟩ := (validate_none_iff _).mp hv
    revert hall
    decide
  have hsw : startsWithSep s = false := by
    unfold startsWithSep
    cases hd : s.data with
    | nil => rfl
    | cons c rest =>
      have : c ≠ pathSep := hnosep c (by rw [hd]; simp)
      simp [this]
  unfold resolvePath
  rw [hsw]
  simp only [Bool.false_eq_true, if_false]
  rw [splitPathStr_name s hnosep hdata]
  exact normalizeInto_single cwd s hdot hdotdot

/-! Section: Placeholder-substitution lemmas -/

theorem expandDollar_no_dollar (m : List Char) (rep : List Char)
    (h : ∀ c ∈ rep, c ≠ ('$' : Char)) : expandDollar m rep = rep := by
  induction rep with
  | nil => rfl
  | cons c rest ih =>
    cases rest with
    | nil => rfl
    | cons d rest2 =>
      have hc : c ≠ ('$' : Char) := h c (by simp)
      unfold expandDollar
      simp only [hc, if_false, List.cons.injEq, true_and]
      exact ih (fun x hx => h x (List.mem_cons_of_mem c hx))

theorem replace_model_concrete (rep : List Char) :
    replaceAllTok placeholderToken rep packageTemplateModel.data =
      manifestPrefix.data ++ rep ++ manifestSuffix.data := rfl

theorem noDoubleBrace_tail (a : Char) (l : List Char)
    (h : noDoubleBrace (a :: l) = true) : noDoubleBrace l = true := by
  cases l with
  | nil => rfl
  | cons b rest =>
    unfold noDoubleBrace at h
    exact Bool.and_elim_right h

theorem no_tok_of_noDoubleBrace (ps : List Char) (l : List Char)
    (h : noDoubleBrace l = true) : containsTok (obr :: obr :: ps) l = false := by
  induction l with
  | nil => rfl
  | cons c rest ih =>
    unfold containsTok
    have h2 := noDoubleBrace_tail c rest h
    rw [ih h2]
    simp only [Bool.or_false]
    cases hp : List.isPrefixOf (obr :: obr :: ps) (c :: rest) with
    | false => rfl
    | true =>
      exfalso
      cases rest with
      | nil => simp [List.isPrefixOf] at hp
      | cons d rest2 =>
        simp [List.isPrefixOf] at hp
        obtain ⟨hc, hd, _⟩ := hp
        subst hc
        subst hd
        simp [noDoubleBrace] at h

theorem noDoubleBrace_cons (a b : Char) (rest : List Char) (hb : b ≠ obr)
    (h : noDoubleBrace (b :: rest) = true) : noDoubleBrace (a :: b :: rest) = true := by
  unfold noDoubleBrace
  simp [hb, h]

theorem noDoubleBrace_build (t : List Char) (ht : noDoubleBrace t = true)
    (hhd : ∀ c ∈ t.take 1, c ≠ obr) :
    ∀ (mid : List Char), (∀ c ∈ mid, c ≠ obr) → ∀ x : Char,
      noDoubleBrace (x :: (mid ++ t)) = true := by
  intro mid
  induction mid with
  | nil =>
    intro _ x
    simp only [List.nil_append]
    cases t with
    | nil => rfl
    | cons b bs =>
      have hb : b ≠ obr := hhd b (by simp)
      exact noDoubleBrace_cons x b bs hb ht
  | cons c cs ih =>
    intro hmid x
    have hc : c ≠ obr := hmid c (by simp)
    simp only [List.cons_append]
    exact noDoubleBrace_cons x c (cs ++ t) hc
      (ih (fun z hz => hmid z (List.mem_cons_of_mem c hz)) c)

theorem manifest_noDoubleBrace (mid : List Char) (hmid : ∀ c ∈ mid, c ≠ obr) :
    noDoubleBrace (manifestPrefix.data ++ (mid ++ manifestSuffix.data)) = true := by
  have base : noDoubleBrace (('"' : Char) :: (mid ++ manifestSuffix.data)) = true :=
    noDoubleBrace_build manifestSuffix.data (by decide) (by decide) mid hmid ('"' : Char)
  show noDoubleBrace (obr :: ('"' : Char) :: ('n' : Char) :: ('a' : Char) :: ('m' : Char) ::
    ('e' : Char) :: ('"' : Char) :: (':' : Char) :: (' ' : Char) :: ('"' : Char) ::
    (mid ++ manifestSuffix.data)) = true
  apply noDoubleBrace_cons _ _ _ (by decide)
  apply noDoubleBrace_cons _ _ _ (by decide)
  apply noDoubleBrace_cons _ _ _ (by decide)
  apply noDoubleBrace_cons _ _ _ (by decide)
  apply noDoubleBrace_cons _ _ _ (by decide)
  apply noDoubleBrace_cons _ _ _ (by decide)
  apply noDoubleBrace_cons _ _ _ (by decide)
  apply noDoubleBrace_cons _ _ _ (by decide)
  apply noDoubleBrace_cons _ _ _ (by decide)
  exact base

theorem manifest_no_placeholder (mid : List Char) (hmid : ∀ c ∈ mid, c ≠ obr) :
    containsTok placeholderToken (manifestPrefix.data ++ (mid ++ manifestSuffix.data)) = false := by
  have h := manifest_noDoubleBrace mid hmid
  exact no_tok_of_noDoubleBrace (List.drop 2 placeholderToken) _ h

theorem containsTok_append_mid (p x y : List Char) (hp : p ≠ []) :
    containsTok p (x ++ (p ++ y)) = true := by
  induction x with
  | nil =>
    simp only [List.nil_append]
    cases p with
    | nil => simp at hp
    | cons a as =>
      unfold containsTok
      simp only [List.cons_append]
      have hpre : List.isPrefixOf (a :: as) (a :: (as ++ y)) = true := by
        rw [ List.isPrefixOf_iff_prefix]
        exact ⟨y, by simp⟩
      rw [show a :: (as ++ y) = a :: as ++ y by simp] at hpre
      rw [show (a :: (as ++ y)) = (a :: as ++ y) by simp]
      rw [hpre]
      rfl
  | cons c xs ih =>
    unfold containsTok
    simp only [List.cons_append]
    rw [ih]
    simp

/-! Section: Unfolding lemmas for the orchestrator -/

theorem createProject_target_exists (choices : UserChoices) (w : World)
    (hT : w.fsExists (resolvePath w.cwd choices.projectName) = true) :
    createProject choices w =
      ([Event.cancelMsg (("Directory \"") ++ choices.projectName ++ ("\" already exists."))],
       ExecResult.exit 1) := by
  unfold createProject
  simp [Bind.bind, Pure.pure, M.bind, M.pure, monadM, readW, fsExistsSyncM, cancelM,
    processExit, hT]

theorem createProject_copy_error (choices : UserChoices) (w : World) (tc : List Event) (e : String)
    (hT : w.fsExists (resolvePath w.cwd choices.projectName) = false)
    (hc : copyProjectFiles (getTemplatesDirectory w) (resolvePath w.cwd choices.projectName)
            choices.projectName choices.tsStrictness w = (tc, ExecResult.error e)) :
    createProject choices w =
      (Event.spinnerStart ("Creating project structure...") ::
        (tc ++ [Event.spinnerStop ("Error creating structure")]), ExecResult.error e) := by
  unfold createProject
  simp [Bind.bind, Pure.pure, M.bind, M.pure, monadM, readW, fsExistsSyncM, cancelM,
    processExit, spinnerStartM, spinnerStopM, tryCatchM, throwErr, hT, hc]

theorem createProject_install_error (choices : UserChoices) (w : World)
    (tc ti : List Event) (e : String)
    (hT : w.fsExists (resolvePath w.cwd choices.projectName) = false)
    (hc : copyProjectFiles (getTemplatesDirectory w) (resolvePath w.cwd choices.projectName)
            choices.projectName choices.tsStrictness w = (tc, ExecResult.ok ()))
    (hi : installDependencies (resolvePath w.cwd choices.projectName) w =
            (ti, ExecResult.error e)) :
    createProject choices w =
      (Event.spinnerStart ("Creating project structure...") ::
        (tc ++ (Event.spinnerStop ("Project structure created ✓") ::
          Event.spinnerStart ("Installing dependencies...") ::
            (ti ++ [Event.spinnerStop ("Error installing dependencies")]))),
       ExecResult.error e) := by
  unfold createProject
  simp [Bind.bind, Pure.pure, M.bind, M.pure, monadM, readW, fsExistsSyncM, cancelM,
    processExit, spinnerStartM, spinnerStopM, tryCatchM, throwErr, hT, hc, hi]

theorem createProject_ok_nogit (choices : UserChoices) (w : World) (tc ti : List Event)
    (hG : choices.initGit = false)
    (hT : w.fsExists (resolvePath w.cwd choices.projectName) = false)
    (hc : copyProjectFiles (getTemplatesDirectory w) (resolvePath w.cwd choices.projectName)
            choices.projectName choices.tsStrictness w = (tc, ExecResult.ok ()))
    (hi : installDependencies (resolvePath w.cwd choices.projectName) w =
            (ti, ExecResult.ok ())) :
    createProject choices w =
      (Event.spinnerStart ("Creating project structure...") ::
        (tc ++ (Event.spinnerStop ("Project structure created ✓") ::
          Event.spinnerStart ("Installing dependencies...") ::
            (ti ++ [Event.spinnerStop ("Dependencies installed ✓")]))),
       ExecResult.ok ()) := by
  unfold createProject
  simp [Bind.bind, Pure.pure, M.bind, M.pure, monadM, readW, fsExistsSyncM, cancelM,
    processExit, spinnerStartM, spinnerStopM, tryCatchM, throwErr, hT, hc, hi, hG]

theorem createProject_git_ok (choices : UserChoices) (w : World) (tc ti tg : List Event)
    (hG : choices.initGit = true)
    (hT : w.fsExists (resolvePath w.cwd choices.projectName) = false)
    (hc : copyProjectFiles (getTemplatesDirectory w) (resolvePath w.cwd choices.projectName)
            choices.projectName choices.tsStrictness w = (tc, ExecResult.ok ()))
    (hi : installDependencies (resolvePath w.cwd choices.projectName) w =
            (ti, ExecResult.ok ()))
    (hg : initializeGitRepository (resolvePath w.cwd choices.projectName) w =
            (tg, ExecResult.ok ())) :
    createProject choices w =
      (Event.spinnerStart ("Creating project structure...") ::
        (tc ++ (Event.spinnerStop ("Project structure created ✓") ::
          Event.spinnerStart ("Installing dependencies...") ::
            (ti ++ (Event.spinnerStop ("Dependencies installed ✓") ::
              Event.spinnerStart ("Initializing Git...") ::
                (tg ++ [Event.spinnerStop ("Git initialized ✓")]))))),
       ExecResult.ok ()) := by
  unfold createProject
  simp [Bind.bind, Pure.pure, M.bind, M.pure, monadM, readW, fsExistsSyncM, cancelM,
    processExit, spinnerStartM, spinnerStopM, tryCatchM, throwErr, hT, hc, hi, hg, hG]

theorem createProject_git_error (choices : UserChoices) (w : World) (tc ti tg : List Event)
    (e : String)
    (hG : choices.initGit = true)
    (hT : w.fsExists (resolvePath w.cwd choices.projectName) = false)
    (hc : copyProjectFiles (getTemplatesDirectory w) (resolvePath w.cwd choices.projectName)
            choices.projectName choices.tsStrictness w = (tc, ExecResult.ok ()))
    (hi : installDependencies (resolvePath w.cwd choices.projectName) w =
            (ti, ExecResult.ok ()))
    (hg : initializeGitRepository (resolvePath w.cwd choices.projectName) w =
            (tg, ExecResult.error e)) :
    createProject choices w =
      (Event.spinnerStart ("Creating project structure...") ::
        (tc ++ (Event.spinnerStop ("Project structure created ✓") ::
          Event.spinnerStart ("Installing dependencies...") ::
            (ti ++ (Event.spinnerStop ("Dependencies installed ✓") ::
              Event.spinnerStart ("Initializing Git...") ::
                (tg ++ [Event.spinnerStop ("Error initializing Git (may not be installed)")]))))),
       ExecResult.ok ()) := by
  unfold createProject
  simp [Bind.bind, Pure.pure, M.bind, M.pure, monadM, readW, fsExistsSyncM, cancelM,
    processExit, spinnerStartM, spinnerStopM, tryCatchM, throwErr, hT, hc, hi, hg, hG]

theorem mainEntry_cancelled_eq (w : World) :
    mainEntry PromptOutcome.cancelled w =
      ([Event.cancelMsg ("Operation cancelled.")], ExecResult.exit 0) := by
  unfold mainEntry runPrompts
  simp [Bind.bind, Pure.pure, M.bind, M.pure, monadM, cancelM, processExit, tryCatchM]

theorem mainEntry_completed_ok (choices : UserChoices) (w : World) (t : List Event)
    (h : createProject choices w = (t, ExecResult.ok ())) :
    mainEntry (PromptOutcome.completed choices) w =
      (t ++ [Event.note (("cd ") ++ choices.projectName),
             Event.note (("Project ") ++ choices.projectName ++ (" created with TypeScript ") ++
               getTsStrictnessDescription choices.tsStrictness)],
       ExecResult.ok ()) := by
  unfold mainEntry runPrompts displaySuccessMessage
  simp [Bind.bind, Pure.pure, M.bind, M.pure, monadM, noteM, cancelM, processExit,
    tryCatchM, h]

theorem isGitSpawn_false_of_isSpawn_false (e : Event) (h : isSpawn e = false) :
    isGitSpawn e = false := by
  cases e <;> simp_all [isSpawn, isGitSpawn]

/-! Section: The claims -/

/-- C1: if the resolved target path already exists, `createProject` performs
no filesystem write and no subprocess spawn, and the process exits with the
non-zero code 1. -/
theorem C1_target_exists_fatal (choices : UserChoices) (w : World)
    (hT : w.fsExists (resolvePath w.cwd choices.projectName) = true) :
    (createProject choices w).2 = ExecResult.exit 1 ∧
      ∀ e ∈ (createProject choices w).1, isFsWrite e = false ∧ isSpawn e = false := by
  rw [createProject_target_exists choices w hT]
  refine ⟨rfl, ?_⟩
  intro e he
  simp only [List.mem_singleton] at he
  subst he
  exact ⟨rfl, rfl⟩



theorem C1_target_exists_fatal_witness :
    worldTargetExists.fsExists (resolvePath worldTargetExists.cwd demoChoices.projectName) = true ∧
    ((createProject demoChoices worldTargetExists).2 = ExecResult.exit 1 ∧
      ∀ e ∈ (createProject demoChoices worldTargetExists).1,
        isFsWrite e = false ∧ isSpawn e = false) :=
  ⟨by decide, C1_target_exists_fatal demoChoices worldTargetExists (by decide)⟩

/-- C2: once materialization has succeeded, an install failure (non-zero npm
exit, or zero exit with the lock artifact absent, both of which make
`installDependencies` fail) makes `createProject` fail with an error and no
git subprocess is ever spawned. -/
theorem C2_install_failure_blocks_git (choices : UserChoices) (w : World)
    (hT : w.fsExists (resolvePath w.cwd choices.projectName) = false)
    (hM : (copyProjectFiles (getTemplatesDirectory w) (resolvePath w.cwd choices.projectName)
            choices.projectName choices.tsStrictness w).2 = ExecResult.ok ())
    (hI : (installDependencies (resolvePath w.cwd choices.projectName) w).2 ≠
            ExecResult.ok ()) :
    (∃ msg, (createProject choices w).2 = ExecResult.error msg) ∧
      ∀ e ∈ (createProject choices w).1, isGitSpawn e = false := by
  rcases hcp : copyProjectFiles (getTemplatesDirectory w) (resolvePath w.cwd choices.projectName)
      choices.projectName choices.tsStrictness w with ⟨tc, rc⟩
  have hcs := copy_no_spawn (getTemplatesDirectory w) (resolvePath w.cwd choices.projectName)
      choices.projectName choices.tsStrictness w
  rw [hcp] at hcs
  rw [hcp] at hM
  have hM2 : rc = ExecResult.ok () := hM
  subst hM2
  rcases install_result_cases (resolvePath w.cwd choices.projectName) w with hok | ⟨msg, herr⟩
  · exact absurd hok hI
  have hti := install_trace_eq (resolvePath w.cwd choices.projectName) w
  rcases hin : installDependencies (resolvePath w.cwd choices.projectName) w with ⟨ti, ri⟩
  rw [hin] at herr hti
  have herr2 : ri = ExecResult.error msg := herr
  have hti2 : ti = [Event.spawn ("npm") [("install")] (resolvePath w.cwd choices.projectName)] := hti
  subst herr2
  subst hti2
  rw [createProject_install_error choices w tc _ msg hT hcp hin]
  constructor
  · exact ⟨msg, rfl⟩
  · intro e he
    simp only [List.mem_cons, List.mem_append, List.mem_singleton] at he
    rcases he with h | h | h | h | h | h
    · subst h; rfl
    · exact isGitSpawn_false_of_isSpawn_false e (hcs e h)
    · subst h; rfl
    · subst h; rfl
    · rcases h with h | h
      · subst h; rfl
      · simp at h
    · rcases h with h | h
      · subst h; rfl
      · simp at h



theorem C2_install_failure_blocks_git_witness :
    worldNpmFails.fsExists (resolvePath worldNpmFails.cwd demoChoicesNoGitless.projectName) = false ∧
    (copyProjectFiles (getTemplatesDirectory worldNpmFails)
        (resolvePath worldNpmFails.cwd demoChoicesNoGitless.projectName)
        demoChoicesNoGitless.projectName demoChoicesNoGitless.tsStrictness worldNpmFails).2 =
      ExecResult.ok () ∧
    (installDependencies (resolvePath worldNpmFails.cwd demoChoicesNoGitless.projectName)
        worldNpmFails).2 ≠ ExecResult.ok () ∧
    ((∃ msg, (createProject demoChoicesNoGitless worldNpmFails).2 = ExecResult.error msg) ∧
      ∀ e ∈ (createProject demoChoicesNoGitless worldNpmFails).1, isGitSpawn e = false) :=
  ⟨by decide, by decide, by decide,
    C2_install_failure_blocks_git demoChoicesNoGitless worldNpmFails
      (by decide) (by decide) (by decide)⟩

/-- C3: when materialization and install succeed and the user chose Git
initialization, any failure inside the git stage is swallowed: the wizard
still completes normally (process exit code 0) and the git warning is
surfaced on the spinner. -/
theorem C3_git_failure_nonfatal (choices : UserChoices) (w : World)
    (hG : choices.initGit = true)
    (hT : w.fsExists (resolvePath w.cwd choices.projectName) = false)
    (hM : (copyProjectFiles (getTemplatesDirectory w) (resolvePath w.cwd choices.projectName)
            choices.projectName choices.tsStrictness w).2 = ExecResult.ok ())
    (hI : (installDependencies (resolvePath w.cwd choices.projectName) w).2 = ExecResult.ok ())
    (hGitFail : (initializeGitRepository (resolvePath w.cwd choices.projectName) w).2 ≠
      ExecResult.ok ()) :
    (mainEntry (PromptOutcome.completed choices) w).2 = ExecResult.ok () ∧
    processExitCode (mainEntry (PromptOutcome.completed choices) w).2 = 0 ∧
    Event.spinnerStop ("Error initializing Git (may not be installed)") ∈
      (mainEntry (PromptOutcome.completed choices) w).1 := by
  rcases hcp : copyProjectFiles (getTemplatesDirectory w) (resolvePath w.cwd choices.projectName)
      choices.projectName choices.tsStrictness w with ⟨tc, rc⟩
  rw [hcp] at hM
  have hM2 : rc = ExecResult.ok () := hM
  subst hM2
  rcases hin : installDependencies (resolvePath w.cwd choices.projectName) w with ⟨ti, ri⟩
  rw [hin] at hI
  have hI2 : ri = ExecResult.ok () := hI
  subst hI2
  rcases git_result_cases (resolvePath w.cwd choices.projectName) w with hok | ⟨msg, herr⟩
  · exact absurd hok hGitFail
  rcases hgp : initializeGitRepository (resolvePath w.cwd choices.projectName) w with ⟨tg, rg⟩
  rw [hgp] at herr
  have herr2 : rg = ExecResult.error msg := herr
  subst herr2
  have hcreate := createProject_git_error choices w tc ti tg msg hG hT hcp hin hgp
  rw [mainEntry_completed_ok choices w _ hcreate]
  refine ⟨rfl, rfl, ?_⟩
  simp


theorem C3_git_failure_nonfatal_witness :
    demoChoices.initGit = true ∧
    worldGitFails.fsExists (resolvePath worldGitFails.cwd demoChoices.projectName) = false ∧
    (copyProjectFiles (getTemplatesDirectory worldGitFails)
        (resolvePath worldGitFails.cwd demoChoices.projectName)
        demoChoices.projectName demoChoices.tsStrictness worldGitFails).2 = ExecResult.ok () ∧
    (installDependencies (resolvePath worldGitFails.cwd demoChoices.projectName)
        worldGitFails).2 = ExecResult.ok () ∧
    (initializeGitRepository (resolvePath worldGitFails.cwd demoChoices.projectName)
        worldGitFails).2 ≠ ExecResult.ok () ∧
    ((mainEntry (PromptOutcome.completed demoChoices) worldGitFails).2 = ExecResult.ok () ∧
      processExitCode (mainEntry (PromptOutcome.completed demoChoices) worldGitFails).2 = 0 ∧
      Event.spinnerStop ("Error initializing Git (may not be installed)") ∈
        (mainEntry (PromptOutcome.completed demoChoices) worldGitFails).1) :=
  ⟨by decide, by decide, by decide, by decide, by decide,
    C3_git_failure_nonfatal demoChoices worldGitFails
      (by decide) (by decide) (by decide) (by decide) (by decide)⟩

/-- C5: when the user declined Git initialization, no git subprocess is
ever spawned, whatever the environment does. -/
theorem C5_no_git_spawn_when_declined (choices : UserChoices) (w : World)
    (hG : choices.initGit = false) :
    ∀ e ∈ (createProject choices w).1, isGitSpawn e = false := by
  cases hT : w.fsExists (resolvePath w.cwd choices.projectName) with
  | true =>
    rw [createProject_target_exists choices w hT]
    intro e he
    simp only [List.mem_singleton] at he
    subst he
    rfl
  | false =>
    have hcs := copy_no_spawn (getTemplatesDirectory w) (resolvePath w.cwd choices.projectName)
      choices.projectName choices.tsStrictness w
    have hcne := copy_result_not_exit (getTemplatesDirectory w)
      (resolvePath w.cwd choices.projectName) choices.projectName choices.tsStrictness w
    rcases hcp : copyProjectFiles (getTemplatesDirectory w) (resolvePath w.cwd choices.projectName)
      choices.projectName choices.tsStrictness w with ⟨tc, rc⟩
    rw [hcp] at hcs hcne
    cases rc with
    | error msg =>
      rw [createProject_copy_error choices w tc msg hT hcp]
      intro e he
      simp at he
      rcases he with h | h | h
      · subst h; rfl
      · exact isGitSpawn_false_of_isSpawn_false e (hcs e h)
      · subst h; rfl
    | exit c => exact absurd rfl (hcne c)
    | ok a =>
      cases a
      have hti := install_trace_eq (resolvePath w.cwd choices.projectName) w
      rcases install_result_cases (resolvePath w.cwd choices.projectName) w with hok | ⟨msg, herr⟩
      · rcases hin : installDependencies (resolvePath w.cwd choices.projectName) w with ⟨ti, ri⟩
        rw [hin] at hok hti
        have hok2 : ri = ExecResult.ok () := hok
        have hti2 : ti = [Event.spawn ("npm") [("install")]
          (resolvePath w.cwd choices.projectName)] := hti
        subst hok2
        subst hti2
        rw [createProject_ok_nogit choices w tc _ hG hT hcp hin]
        intro e he
        simp at he
        rcases he with h | h | h | h | h | h
        · subst h; rfl
        · exact isGitSpawn_false_of_isSpawn_false e (hcs e h)
        · subst h; rfl
        · subst h; rfl
        · subst h; rfl
        · subst h; rfl
      · rcases hin : installDependencies (resolvePath w.cwd choices.projectName) w with ⟨ti, ri⟩
        rw [hin] at herr hti
        have herr2 : ri = ExecResult.error msg := herr
        have hti2 : ti = [Event.spawn ("npm") [("install")]
          (resolvePath w.cwd choices.projectName)] := hti
        subst herr2
        subst hti2
        rw [createProject_install_error choices w tc _ msg hT hcp hin]
        intro e he
        simp at he
        rcases he with h | h | h | h | h | h
        · subst h; rfl
        · exact isGitSpawn_false_of_isSpawn_false e (hcs e h)
        · subst h; rfl
        · subst h; rfl
        · subst h; rfl
        · subst h; rfl



theorem C5_no_git_spawn_when_declined_witness :
    demoChoicesNoGit.initGit = false ∧
    ∀ e ∈ (createProject demoChoicesNoGit worldAllOk).1, isGitSpawn e = false :=
  ⟨by decide, C5_no_git_spawn_when_declined demoChoicesNoGit worldAllOk (by decide)⟩

theorem validate_none_iff_spec (s : String) :
    validateProjectName s = none ↔ specNamePattern s = true := by
  rw [validate_none_iff]
  unfold specNamePattern
  rw [Bool.and_eq_true]
  constructor
  · rintro ⟨hne, hall⟩
    have hd : s.data ≠ [] := fun hd => hne ((string_eq_empty_iff s).mpr hd)
    constructor
    · simp [List.isEmpty_iff, hd]
    · rw [List.all_eq_true] at hall ⊢
      intro c hc
      rw [← isNameChar_eq_specNameChar]
      exact hall c hc
  · rintro ⟨h1, h2⟩
    constructor
    · intro he
      subst he
      simp at h1
    · rw [List.all_eq_true] at h2 ⊢
      intro c hc
      rw [isNameChar_eq_specNameChar]
      exact h2 c hc

/-- C8: the text prompt's validator accepts exactly the non-empty strings
over `[A-Za-z0-9_-]`, so every record the wizard hands on satisfies the
name invariant; and the prompt stage returns the collected record
unchanged (the embedding has no mutation: the record is created once). -/
theorem C8_prompt_record_invariant :
    (∀ s : String, validateProjectName s = none ↔ specNamePattern s = true) ∧
    (∀ (c : UserChoices) (w : World),
      runPrompts (PromptOutcome.completed c) w = ([], ExecResult.ok c)) :=
  ⟨validate_none_iff_spec, fun _ _ => rfl⟩

/-- C9: when the user cancels during the interactive prompts, the process
exits immediately with code 0 after the cancel banner: no filesystem write
and no subprocess spawn takes place. -/
theorem C9_cancellation_exits_zero (w : World) :
    mainEntry PromptOutcome.cancelled w =
      ([Event.cancelMsg ("Operation cancelled.")], ExecResult.exit 0) ∧
    processExitCode (mainEntry PromptOutcome.cancelled w).2 = 0 ∧
    ∀ e ∈ (mainEntry PromptOutcome.cancelled w).1,
      isFsWrite e = false ∧ isSpawn e = false := by
  have h := mainEntry_cancelled_eq w
  refine ⟨h, ?_, ?_⟩
  · rw [h]
    rfl
  · rw [h]
    intro e he
    simp only [List.mem_singleton] at he
    subst he
    exact ⟨rfl, rfl⟩

/-- C10: every name accepted by the validator consists only of letters,
digits, hyphens and underscores, hence contains no path separator, no dot
(so neither `.` nor `..`) and no dollar sign; consequently
`path.resolve(cwd, name)` is the direct child `cwd/name`, and the
replacement-string expansion of the placeholder substitution inserts the
name verbatim. -/
theorem C10_validated_name_path_safety (s : String)
    (hv : validateProjectName s = none) :
    (∀ c ∈ s.data, isNameChar c = true ∧ c ≠ pathSep ∧ c ≠ ('.' : Char) ∧ c ≠ ('$' : Char)) ∧
    (∀ cwd : List String, resolvePath cwd s = cwd ++ [s]) ∧
    (∀ matched : List Char, expandDollar matched s.data = s.data) := by
  have hchars := validName_chars s hv
  refine ⟨?_, ?_, ?_⟩
  · intro c hc
    have h := hchars c hc
    exact ⟨h, isNameChar_ne_sep c h, isNameChar_ne_dot c h, isNameChar_ne_dollar c h⟩
  · intro cwd
    exact validName_resolve cwd s hv
  · intro matched
    exact expandDollar_no_dollar matched s.data (fun c hc => isNameChar_ne_dollar c (hchars c hc))

theorem C10_validated_name_path_safety_witness :
    validateProjectName ("demo-app") = none ∧
    resolvePath [("home")] ("demo-app") = [("home"), ("demo-app")] ∧
    expandDollar placeholderToken ("demo-app").data = ("demo-app").data :=
  ⟨by decide,
   (C10_validated_name_path_safety ("demo-app") (by decide)).2.1 [("home")],
   (C10_validated_name_path_safety ("demo-app") (by decide)).2.2 placeholderToken⟩

/-- C7: the pipeline runs strictly in order. The trace decomposes into a
validation part (no writes, no spawns), a materialization part (no
spawns), an install part that is non-empty only when materialization
succeeded and whose only spawn is the npm install, and a VCS part that is
non-empty only when materialization and install (including lock
verification) both succeeded and that contains only git spawns and no
filesystem writes. -/
theorem C7_stage_ordering (choices : UserChoices) (w : World) :
    ∃ tv tm ti tg : List Event,
      (createProject choices w).1 = tv ++ tm ++ ti ++ tg ∧
      (∀ e ∈ tv, isFsWrite e = false ∧ isSpawn e = false) ∧
      (∀ e ∈ tm, isSpawn e = false) ∧
      (ti ≠ [] →
        (copyProjectFiles (getTemplatesDirectory w) (resolvePath w.cwd choices.projectName)
          choices.projectName choices.tsStrictness w).2 = ExecResult.ok ()) ∧
      (∀ e ∈ ti, isGitSpawn e = false) ∧
      (tg ≠ [] →
        (copyProjectFiles (getTemplatesDirectory w) (resolvePath w.cwd choices.projectName)
            choices.projectName choices.tsStrictness w).2 = ExecResult.ok () ∧
          (installDependencies (resolvePath w.cwd choices.projectName) w).2 =
            ExecResult.ok ()) ∧
      (∀ e ∈ tg, isFsWrite e = false ∧ (isSpawn e = true → isGitSpawn e = true)) := by
  cases hT : w.fsExists (resolvePath w.cwd choices.projectName) with
  | true =>
    refine ⟨[Event.cancelMsg (("Directory \"") ++ choices.projectName ++ ("\" already exists."))],
      [], [], [], ?_, ?_, ?_, ?_, ?_, ?_, ?_⟩
    · rw [createProject_target_exists choices w hT]; simp
    · intro e he; simp at he; subst he; exact ⟨rfl, rfl⟩
    · intro e he; simp at he
    · intro hne; simp at hne
    · intro e he; simp at he
    · intro hne; simp at hne
    · intro e he; simp at he
  | false =>
    have hcs := copy_no_spawn (getTemplatesDirectory w) (resolvePath w.cwd choices.projectName)
      choices.projectName choices.tsStrictness w
    have hcne := copy_result_not_exit (getTemplatesDirectory w)
      (resolvePath w.cwd choices.projectName) choices.projectName choices.tsStrictness w
    rcases hcp : copyProjectFiles (getTemplatesDirectory w) (resolvePath w.cwd choices.projectName)
      choices.projectName choices.tsStrictness w with ⟨tc, rc⟩
    rw [hcp] at hcs hcne
    cases rc with
    | exit c => exact absurd rfl (hcne c)
    | error msg =>
      refine ⟨[], Event.spinnerStart ("Creating project structure...") ::
          (tc ++ [Event.spinnerStop ("Error creating structure")]), [], [],
        ?_, ?_, ?_, ?_, ?_, ?_, ?_⟩
      · rw [createProject_copy_error choices w tc msg hT hcp]; simp
      · intro e he; simp at he
      · intro e he
        simp at he
        rcases he with h | h | h
        · subst h; rfl
        · exact hcs e h
        · subst h; rfl
      · intro hne; simp at hne
      · intro e he; simp at he
      · intro hne; simp at hne
      · intro e he; simp at he
    | ok a =>
      cases a
      have hti := install_trace_eq (resolvePath w.cwd choices.projectName) w
      rcases hin : installDependencies (resolvePath w.cwd choices.projectName) w with ⟨ti0, ri⟩
      rw [hin] at hti
      have hti2 : ti0 = [Event.spawn ("npm") [("install")]
        (resolvePath w.cwd choices.projectName)] := hti
      subst hti2
      cases ri with
      | exit c =>
        exfalso
        rcases install_result_cases (resolvePath w.cwd choices.projectName) w with hok | ⟨m, herr⟩
        · rw [hin] at hok; exact ExecResult.noConfusion hok
        · rw [hin] at herr; exact ExecResult.noConfusion herr
      | error msg =>
        refine ⟨[], Event.spinnerStart ("Creating project structure...") ::
            (tc ++ [Event.spinnerStop ("Project structure created ✓")]),
          Event.spinnerStart ("Installing dependencies...") ::
            Event.spawn ("npm") [("install")] (resolvePath w.cwd choices.projectName) ::
              [Event.spinnerStop ("Error installing dependencies")],
          [], ?_, ?_, ?_, ?_, ?_, ?_, ?_⟩
        · rw [createProject_install_error choices w tc _ msg hT hcp hin]; simp
        · intro e he; simp at he
        · intro e he
          simp at he
          rcases he with h | h | h
          · subst h; rfl
          · exact hcs e h
          · subst h; rfl
        · intro _
          rfl
        · intro e he
          simp at he
          rcases he with h | h | h
          · subst h; rfl
          · subst h; rfl
          · subst h; rfl
        · intro hne; simp at hne
        · intro e he; simp at he
      | ok a2 =>
        cases a2
        cases hG : choices.initGit with
        | false =>
          refine ⟨[], Event.spinnerStart ("Creating project structure...") ::
              (tc ++ [Event.spinnerStop ("Project structure created ✓")]),
            Event.spinnerStart ("Installing dependencies...") ::
              Event.spawn ("npm") [("install")] (resolvePath w.cwd choices.projectName) ::
                [Event.spinnerStop ("Dependencies installed ✓")],
            [], ?_, ?_, ?_, ?_, ?_, ?_, ?_⟩
          · rw [createProject_ok_nogit choices w tc _ hG hT hcp hin]; simp
          · intro e he; simp at he
          · intro e he
            simp at he
            rcases he with h | h | h
            · subst h; rfl
            · exact hcs e h
            · subst h; rfl
          · intro _
            rfl
          · intro e he
            simp at he
            rcases he with h | h | h
            · subst h; rfl
            · subst h; rfl
            · subst h; rfl
          · intro hne; simp at hne
          · intro e he; simp at he
        | true =>
          have hgs := git_trace_spawns (resolvePath w.cwd choices.projectName) w
          have hgcases := git_result_cases (resolvePath w.cwd choices.projectName) w
          rcases hgp : initializeGitRepository (resolvePath w.cwd choices.projectName) w
            with ⟨tg0, rg⟩
          rw [hgp] at hgs hgcases
          cases rg with
          | exit c =>
            exfalso
            rcases hgcases with hok | ⟨m, herr⟩
            · exact ExecResult.noConfusion hok
            · exact ExecResult.noConfusion herr
          | ok a3 =>
            cases a3
            refine ⟨[], Event.spinnerStart ("Creating project structure...") ::
                (tc ++ [Event.spinnerStop ("Project structure created ✓")]),
              Event.spinnerStart ("Installing dependencies...") ::
                Event.spawn ("npm") [("install")] (resolvePath w.cwd choices.projectName) ::
                  [Event.spinnerStop ("Dependencies installed ✓")],
              Event.spinnerStart ("Initializing Git...") ::
                (tg0 ++ [Event.spinnerStop ("Git initialized ✓")]),
              ?_, ?_, ?_, ?_, ?_, ?_, ?_⟩
            · rw [createProject_git_ok choices w tc _ tg0 hG hT hcp hin hgp]; simp
            · intro e he; simp at he
            · intro e he
              simp at he
              rcases he with h | h | h
              · subst h; rfl
              · exact hcs e h
              · subst h; rfl
            · intro _
              rfl
            · intro e he
              simp at he
              rcases he with h | h | h
              · subst h; rfl
              · subst h; rfl
              · subst h; rfl
            · intro _
              constructor
              · rfl
              · rfl
            · intro e he
              simp at he
              rcases he with h | h | h
              · subst h
                refine ⟨rfl, ?_⟩
                intro hh
                simp [isSpawn] at hh
              · rcases hgs e h with ⟨h1, _, h3⟩
                exact ⟨h1, fun _ => h3⟩
              · subst h
                refine ⟨rfl, ?_⟩
                intro hh
                simp [isSpawn] at hh
          | error msg =>
            refine ⟨[], Event.spinnerStart ("Creating project structure...") ::
                (tc ++ [Event.spinnerStop ("Project structure created ✓")]),
              Event.spinnerStart ("Installing dependencies...") ::
                Event.spawn ("npm") [("install")] (resolvePath w.cwd choices.projectName) ::
                  [Event.spinnerStop ("Dependencies installed ✓")],
              Event.spinnerStart ("Initializing Git...") ::
                (tg0 ++ [Event.spinnerStop ("Error initializing Git (may not be installed)")]),
              ?_, ?_, ?_, ?_, ?_, ?_, ?_⟩
            · rw [createProject_git_error choices w tc _ tg0 msg hG hT hcp hin hgp]; simp
            · intro e he; simp at he
            · intro e he
              simp at he
              rcases he with h | h | h
              · subst h; rfl
              · exact hcs e h
              · subst h; rfl
            · intro _
              rfl
            · intro e he
              simp at he
              rcases he with h | h | h
              · subst h; rfl
              · subst h; rfl
              · subst h; rfl
            · intro _
              constructor
              · rfl
              · rfl
            · intro e he
              simp at he
              rcases he with h | h | h
              · subst h
                refine ⟨rfl, ?_⟩
                intro hh
                simp [isSpawn] at hh
              · rcases hgs e h with ⟨h1, _, h3⟩
                exact ⟨h1, fun _ => h3⟩
              · subst h
                refine ⟨rfl, ?_⟩
                intro hh
                simp [isSpawn] at hh

theorem replacePlaceholder_model_eq (name : String) (hv : validateProjectName name = none) :
    replacePlaceholder packageTemplateModel name = manifestPrefix ++ name ++ manifestSuffix := by
  have hchars := validName_chars name hv
  have hnd : ∀ c ∈ name.data, c ≠ ('$' : Char) :=
    fun c hc => isNameChar_ne_dollar c (hchars c hc)
  unfold replacePlaceholder
  rw [expandDollar_no_dollar placeholderToken name.data hnd]
  rw [replace_model_concrete name.data]
  cases name with
  | mk d => rfl

theorem manifest_content_props (name : String) (hv : validateProjectName name = none) :
    containsTok placeholderToken (manifestPrefix ++ name ++ manifestSuffix).data = false ∧
    containsTok name.data (manifestPrefix ++ name ++ manifestSuffix).data = true := by
  have hchars := validName_chars name hv
  have hobr : ∀ c ∈ name.data, c ≠ obr := fun c hc => isNameChar_ne_obr c (hchars c hc)
  have hdata := validName_data_ne_nil name hv
  have hdeq : (manifestPrefix ++ name ++ manifestSuffix).data =
      manifestPrefix.data ++ (name.data ++ manifestSuffix.data) := by
    cases name with
    | mk d => exact List.append_assoc _ _ _
  rw [hdeq]
  constructor
  · exact manifest_no_placeholder name.data hobr
  · exact containsTok_append_mid name.data manifestPrefix.data manifestSuffix.data hdata

/-- C4: for a validated project name and any strictness level, a successful
materialization performs exactly these filesystem events: create the src
directory, copy exactly one entry file, copy exactly one ignore file,
write exactly one manifest whose content is the template with every
placeholder occurrence replaced by the name (the result contains the
literal name as a substring and no placeholder token remains), and copy
exactly one strictness-specific configuration to tsconfig.json; moreover
every write targets the project directory while the template tree is only
used as the source of reads. -/
theorem C4_materialization_output (tdir ppath : List String) (name : String)
    (s : TsStrictness) (w : World)
    (hv : validateProjectName name = none)
    (h1 : w.ensureDirOk (ppath ++ [("src")]) = true)
    (h2 : w.copyOk (tdir ++ [("base"), ("src"), ("index.ts")])
      (ppath ++ [("src"), ("index.ts")]) = true)
    (h3 : w.copyOk (tdir ++ [("base"), ("gitignore")]) (ppath ++ [(".gitignore")]) = true)
    (h4 : w.readFileRes (tdir ++ [("base"), ("package.template.json")]) =
      Except.ok packageTemplateModel)
    (h5 : w.writeOk (ppath ++ [("package.json")]) = true)
    (h6 : w.copyOk (tdir ++ [("tsconfig"), (strictnessFileName s)])
      (ppath ++ [("tsconfig.json")]) = true) :
    copyProjectFiles tdir ppath name s w =
      ([Event.ensureDir (ppath ++ [("src")]),
        Event.copyFile (tdir ++ [("base"), ("src"), ("index.ts")])
          (ppath ++ [("src"), ("index.ts")]),
        Event.copyFile (tdir ++ [("base"), ("gitignore")]) (ppath ++ [(".gitignore")]),
        Event.readFile (tdir ++ [("base"), ("package.template.json")]),
        Event.writeFile (ppath ++ [("package.json")])
          (manifestPrefix ++ name ++ manifestSuffix),
        Event.copyFile (tdir ++ [("tsconfig"), (strictnessFileName s)])
          (ppath ++ [("tsconfig.json")])],
       ExecResult.ok ()) ∧
    containsTok placeholderToken (manifestPrefix ++ name ++ manifestSuffix).data = false ∧
    containsTok name.data (manifestPrefix ++ name ++ manifestSuffix).data = true ∧
    (∀ e ∈ (copyProjectFiles tdir ppath name s w).1,
      (∀ q, writeTargetPath e = some q → ∃ rest, q = ppath ++ rest) ∧
      (∀ q, readSourcePath e = some q → ∃ rest, q = tdir ++ rest)) := by
  have hct := copy_trace_ok tdir ppath name s packageTemplateModel w h1 h2 h3 h4 h5 h6
  rw [replacePlaceholder_model_eq name hv] at hct
  obtain ⟨hnp, hcn⟩ := manifest_content_props name hv
  refine ⟨hct, hnp, hcn, ?_⟩
  rw [hct]
  intro e he
  simp at he
  rcases he with h | h | h | h | h | h
  · subst h
    constructor
    · intro q hq
      simp [writeTargetPath] at hq
      subst hq
      exact ⟨[("src")], rfl⟩
    · intro q hq
      simp [readSourcePath] at hq
  · subst h
    constructor
    · intro q hq
      simp [writeTargetPath] at hq
      subst hq
      exact ⟨[("src"), ("index.ts")], rfl⟩
    · intro q hq
      simp [readSourcePath] at hq
      subst hq
      exact ⟨[("base"), ("src"), ("index.ts")], rfl⟩
  · subst h
    constructor
    · intro q hq
      simp [writeTargetPath] at hq
      subst hq
      exact ⟨[(".gitignore")], rfl⟩
    · intro q hq
      simp [readSourcePath] at hq
      subst hq
      exact ⟨[("base"), ("gitignore")], rfl⟩
  · subst h
    constructor
    · intro q hq
      simp [writeTargetPath] at hq
    · intro q hq
      simp [readSourcePath] at hq
      subst hq
      exact ⟨[("base"), ("package.template.json")], rfl⟩
  · subst h
    constructor
    · intro q hq
      simp [writeTargetPath] at hq
      subst hq
      exact ⟨[("package.json")], rfl⟩
    · intro q hq
      simp [readSourcePath] at hq
  · subst h
    constructor
    · intro q hq
      simp [writeTargetPath] at hq
      subst hq
      exact ⟨[("tsconfig.json")], rfl⟩
    · intro q hq
      simp [readSourcePath] at hq
      subst hq
      exact ⟨[("tsconfig"), (strictnessFileName s)], rfl⟩

theorem C4_materialization_output_witness :
    validateProjectName ("demo-app") = none ∧
    worldAllOk.ensureDirOk ([("p")] ++ [("src")]) = true ∧
    worldAllOk.readFileRes ([("t")] ++ [("base"), ("package.template.json")]) =
      Except.ok packageTemplateModel ∧
    (copyProjectFiles [("t")] [("p")] ("demo-app") TsStrictness.strict worldAllOk =
      ([Event.ensureDir ([("p")] ++ [("src")]),
        Event.copyFile ([("t")] ++ [("base"), ("src"), ("index.ts")])
          ([("p")] ++ [("src"), ("index.ts")]),
        Event.copyFile ([("t")] ++ [("base"), ("gitignore")]) ([("p")] ++ [(".gitignore")]),
        Event.readFile ([("t")] ++ [("base"), ("package.template.json")]),
        Event.writeFile ([("p")] ++ [("package.json")])
          (manifestPrefix ++ ("demo-app") ++ manifestSuffix),
        Event.copyFile ([("t")] ++ [("tsconfig"), (strictnessFileName TsStrictness.strict)])
          ([("p")] ++ [("tsconfig.json")])],
       ExecResult.ok ())) ∧
    containsTok placeholderToken (manifestPrefix ++ ("demo-app") ++ manifestSuffix).data = false ∧
    containsTok ("demo-app").data (manifestPrefix ++ ("demo-app") ++ manifestSuffix).data = true :=
  ⟨by decide, by decide, by rfl,
    (C4_materialization_output [("t")] [("p")] ("demo-app") TsStrictness.strict worldAllOk
      (by decide) (by decide) (by decide) (by decide) (by rfl) (by decide) (by decide)).1,
    (C4_materialization_output [("t")] [("p")] ("demo-app") TsStrictness.strict worldAllOk
      (by decide) (by decide) (by decide) (by decide) (by rfl) (by decide) (by decide)).2.1,
    (C4_materialization_output [("t")] [("p")] ("demo-app") TsStrictness.strict worldAllOk
      (by decide) (by decide) (by decide) (by decide) (by rfl) (by decide) (by decide)).2.2.1⟩

theorem ne_of_last_ne (l1 l2 : List String) (h : l1.getLast? ≠ l2.getLast?) : l1 ≠ l2 :=
  fun he => h (by rw [he])

theorem getLast_append_two (a : List String) (x y : String) :
    (a ++ [x, y]).getLast? = some y := by
  rw [show a ++ [x, y] = (a ++ [x]) ++ [y] by simp]
  exact List.getLast?_concat _

theorem getLast_append_one (a : List String) (x : String) :
    (a ++ [x]).getLast? = some x := List.getLast?_concat _

/-- C6: strictness selection is a pure total function from the three
strictness values to the configuration templates: the three values map to
distinct template file names, each present in the template store, and
interpreting a successful materialization trace on any filesystem model
leaves at the target's tsconfig.json exactly the content the model assigns
to the selected strictness template. -/
theorem C6_strictness_selection (tdir ppath : List String) (name : String)
    (s : TsStrictness) (tmpl : String) (w : World) (fs : FSModel)
    (h1 : w.ensureDirOk (ppath ++ [("src")]) = true)
    (h2 : w.copyOk (tdir ++ [("base"), ("src"), ("index.ts")])
      (ppath ++ [("src"), ("index.ts")]) = true)
    (h3 : w.copyOk (tdir ++ [("base"), ("gitignore")]) (ppath ++ [(".gitignore")]) = true)
    (h4 : w.readFileRes (tdir ++ [("base"), ("package.template.json")]) = Except.ok tmpl)
    (h5 : w.writeOk (ppath ++ [("package.json")]) = true)
    (h6 : w.copyOk (tdir ++ [("tsconfig"), (strictnessFileName s)])
      (ppath ++ [("tsconfig.json")]) = true) :
    Function.Injective strictnessFileName ∧
    (∀ lvl : TsStrictness, [("tsconfig"), (strictnessFileName lvl)] ∈ templateStoreFiles) ∧
    applyTrace fs (copyProjectFiles tdir ppath name s w).1 (ppath ++ [("tsconfig.json")]) =
      fs (tdir ++ [("tsconfig"), (strictnessFileName s)]) := by
  refine ⟨?_, ?_, ?_⟩
  · intro a b hab
    cases a <;> cases b <;> first
      | rfl
      | (exfalso; revert hab; decide)
  · intro lvl
    cases lvl <;> decide
  · rw [copy_trace_ok tdir ppath name s tmpl w h1 h2 h3 h4 h5 h6]
    have hne1 : tdir ++ [("tsconfig"), (strictnessFileName s)] ≠
        ppath ++ [("src"), ("index.ts")] := by
      apply ne_of_last_ne
      rw [getLast_append_two, getLast_append_two]
      cases s <;> decide
    have hne2 : tdir ++ [("tsconfig"), (strictnessFileName s)] ≠ ppath ++ [(".gitignore")] := by
      apply ne_of_last_ne
      rw [getLast_append_two, getLast_append_one]
      cases s <;> decide
    have hne3 : tdir ++ [("tsconfig"), (strictnessFileName s)] ≠
        ppath ++ [("package.json")] := by
      apply ne_of_last_ne
      rw [getLast_append_two, getLast_append_one]
      cases s <;> decide
    simp [applyTrace, applyEvent, hne1, hne2, hne3]

theorem C6_strictness_selection_witness :
    worldAllOk.ensureDirOk ([("p")] ++ [("src")]) = true ∧
    worldAllOk.readFileRes ([("t")] ++ [("base"), ("package.template.json")]) =
      Except.ok packageTemplateModel ∧
    (Function.Injective strictnessFileName ∧
      (∀ lvl : TsStrictness, [("tsconfig"), (strictnessFileName lvl)] ∈ templateStoreFiles) ∧
      applyTrace (fun _ => none)
          (copyProjectFiles [("t")] [("p")] ("demo-app") TsStrictness.moderate worldAllOk).1
          ([("p")] ++ [("tsconfig.json")]) =
        (fun _ => (none : Option String))
          ([("t")] ++ [("tsconfig"), (strictnessFileName TsStrictness.moderate)])) :=
  ⟨by decide, by rfl,
    C6_strictness_selection [("t")] [("p")] ("demo-app") TsStrictness.moderate
      packageTemplateModel worldAllOk (fun _ => none)
      (by decide) (by decide) (by decide) (by rfl) (by decide) (by decide)⟩
